/-
Verification development for the kmip-cli repository (src/main.go).

The program is a single-file Go command-line client.  We shallowly embed the
functions of src/main.go as Lean functions.  External effects (TLS dialing,
file reads, the kmip-go TTLV decoder, the encoding/xml decoder) are passed in
as explicit arguments (oracles) describing the results those calls produce,
while everything the repository's own code computes — hex encoding/decoding,
whitespace trimming, the batch-item status scan, the control flow of main —
is embedded faithfully from the source.

Bytes are modelled as `Nat` (with `< 256` side conditions where relevant),
byte slices as `List Nat`, Go strings as `String`, and Go `error` results as
`Except String`/`Option String` values.
-/
import Mathlib

namespace KmipCli

/-! ## Hex codec (Go `encoding/hex`)

`hex.EncodeToString` produces two lowercase hex digits per byte;
`hex.DecodeString` parses pairs of hex digits (either case), failing on an
odd-length input or a non-hex character.  These stdlib functions are embedded
concretely because `readRequest`, `printResponse` and `xmlToHex` in
src/main.go all route bytes through them. -/

/-- The lowercase hex digit for a nibble: code 48 + m for m < 10 (digits),
code 87 + m for 10 ≤ m < 16 (letters a-f).  Indexing Go's `hextable` string
"0123456789abcdef"; reduction mod 16 is vacuous on real nibbles. -/
def toHexDigit (n : Nat) : Char :=
  if n % 16 < 10 then Char.ofNat (48 + n % 16) else Char.ofNat (87 + n % 16)

/-- Hex-encode a byte list: two lowercase digits per byte (Go `hex.EncodeToString`). -/
def hexEncodeList : List Nat → List Char
  | [] => []
  | b :: bs => toHexDigit (b / 16) :: toHexDigit (b % 16) :: hexEncodeList bs

/-- Go `hex.EncodeToString` on a byte slice, producing a string. -/
def hexEncodeToString (bs : List Nat) : String := ⟨hexEncodeList bs⟩

/-- The value of a hex digit character, accepting both cases (Go
`encoding/hex` `fromHexChar`), by character-code ranges: digits occupy codes
48-57, lowercase a-f codes 97-102, uppercase A-F codes 65-70. -/
def fromHexDigit (c : Char) : Option Nat :=
  if 48 ≤ c.toNat ∧ c.toNat ≤ 57 then some (c.toNat - 48)
  else if 97 ≤ c.toNat ∧ c.toNat ≤ 102 then some (c.toNat - 87)
  else if 65 ≤ c.toNat ∧ c.toNat ≤ 70 then some (c.toNat - 55)
  else none

/-- Hex-decode a character list pairwise; fails on odd length or a non-hex
character (Go `hex.DecodeString`, with the error modelled as a message). -/
def hexDecodeList : List Char → Except String (List Nat)
  | [] => .ok []
  | [_] => .error "encoding hex odd length hex string"
  | c1 :: c2 :: rest =>
    match fromHexDigit c1, fromHexDigit c2 with
    | some hi, some lo =>
      match hexDecodeList rest with
      | .ok bs => .ok ((hi * 16 + lo) :: bs)
      | .error e => .error e
    | _, _ => .error "encoding hex invalid byte"

/-- Go `hex.DecodeString` on a string. -/
def hexDecodeString (s : String) : Except String (List Nat) := hexDecodeList s.data

theorem fromHexDigit_toHexDigit (n : Nat) (h : n < 16) :
    fromHexDigit (toHexDigit n) = some n := by
  interval_cases n <;> decide

theorem hexDecodeList_hexEncodeList (bs : List Nat) (h : ∀ b ∈ bs, b < 256) :
    hexDecodeList (hexEncodeList bs) = .ok bs := by
  induction bs with
  | nil => rfl
  | cons b rest ih =>
    have hb : b < 256 := h b (List.mem_cons_self b rest)
    have hhi : b / 16 < 16 := Nat.div_lt_of_lt_mul (by omega)
    have hlo : b % 16 < 16 := Nat.mod_lt _ (by omega)
    have hrest : hexDecodeList (hexEncodeList rest) = .ok rest :=
      ih (fun x hx => h x (List.mem_cons_of_mem _ hx))
    simp only [hexEncodeList, hexDecodeList,
      fromHexDigit_toHexDigit _ hhi, fromHexDigit_toHexDigit _ hlo, hrest]
    have : b / 16 * 16 + b % 16 = b := by
      have := Nat.div_add_mod b 16
      omega
    rw [this]

/-- Round trip of the Go hex codec: decoding an encoding is the identity. -/
theorem hexDecodeString_hexEncodeToString (bs : List Nat) (h : ∀ b ∈ bs, b < 256) :
    hexDecodeString (hexEncodeToString bs) = .ok bs :=
  hexDecodeList_hexEncodeList bs h

/-! ## Whitespace trimming (Go `strings.TrimSpace`)

`readRequest` trims the input text with `strings.TrimSpace` before decoding.
Go's `unicode.IsSpace` on Latin-1 accepts `'\t'`, `'\n'`, `'\v'`, `'\f'`,
`'\r'`, `' '`, U+0085 and U+00A0; we embed that character class (the claims
only ever exercise ASCII whitespace). -/

/-- Go `unicode.IsSpace` restricted to the Latin-1 range: `'\t'` through
`'\r'` (codes 9-13), `' '` (32), U+0085 and U+00A0. -/
def goIsSpace (c : Char) : Bool :=
  (9 ≤ c.toNat && c.toNat ≤ 13) || c.toNat = 32 || c.toNat = 133 || c.toNat = 160

/-- Drop leading whitespace characters. -/
def trimLeftList (cs : List Char) : List Char := cs.dropWhile goIsSpace

/-- Drop trailing whitespace characters. -/
def trimRightList (cs : List Char) : List Char :=
  (cs.reverse.dropWhile goIsSpace).reverse

/-- Go `strings.TrimSpace`: strip leading and trailing whitespace. -/
def trimSpace (s : String) : String := ⟨trimRightList (trimLeftList s.data)⟩

theorem dropWhile_of_forall_neg {p : Char → Bool} (cs : List Char)
    (h : ∀ c ∈ cs, p c = false) : cs.dropWhile p = cs := by
  cases cs with
  | nil => rfl
  | cons c rest =>
    simp [List.dropWhile_cons, h c (List.mem_cons_self c rest)]

theorem trimSpace_of_no_space (s : String)
    (h : ∀ c ∈ s.data, goIsSpace c = false) : trimSpace s = s := by
  have h1 : trimLeftList s.data = s.data := dropWhile_of_forall_neg _ h
  have h2 : trimRightList s.data = s.data := by
    unfold trimRightList
    rw [dropWhile_of_forall_neg _ (fun c hc => h c (List.mem_reverse.mp hc)),
      List.reverse_reverse]
  unfold trimSpace
  rw [h1, h2]

theorem goIsSpace_toHexDigit (n : Nat) : goIsSpace (toHexDigit n) = false := by
  have h : n % 16 < 16 := Nat.mod_lt _ (by omega)
  unfold toHexDigit
  generalize n % 16 = m at h ⊢
  interval_cases m <;> decide

theorem hexEncodeList_no_space (bs : List Nat) :
    ∀ c ∈ hexEncodeList bs, goIsSpace c = false := by
  induction bs with
  | nil => intro c hc; cases hc
  | cons b rest ih =>
    intro c hc
    simp only [hexEncodeList, List.mem_cons] at hc
    rcases hc with rfl | rfl | hc
    · exact goIsSpace_toHexDigit _
    · exact goIsSpace_toHexDigit _
    · exact ih c hc

theorem trimSpace_hexEncodeToString (bs : List Nat) :
    trimSpace (hexEncodeToString bs) = hexEncodeToString bs :=
  trimSpace_of_no_space _ (hexEncodeList_no_space bs)

theorem trimLeftList_cons_space (c : Char) (cs : List Char) (h : goIsSpace c = true) :
    trimLeftList (c :: cs) = trimLeftList cs := by
  simp [trimLeftList, List.dropWhile_cons, h]

theorem trimRightList_append_space (c : Char) (cs : List Char) (h : goIsSpace c = true) :
    trimRightList (cs ++ [c]) = trimRightList cs := by
  simp [trimRightList, List.dropWhile_cons, h]

theorem trimSpace_append_newline (s : String) :
    trimSpace (s ++ "\n") = trimSpace s := by
  unfold trimSpace
  have hdata : (s ++ "\n").data = s.data ++ ['\n'] := by
    simp [String.data_append]
  rw [hdata]
  unfold trimLeftList
  rcases hdw : s.data.dropWhile goIsSpace with _ | ⟨c, rest⟩
  · rw [List.dropWhile_append, hdw]
    rfl
  · rw [List.dropWhile_append, hdw]
    simp only [List.isEmpty_cons, Bool.false_eq_true, if_false]
    rw [trimRightList_append_space '\n' (c :: rest) (by decide)]

theorem trimSpace_newline_prepend (s : String) :
    trimSpace ("\n" ++ s) = trimSpace s := by
  unfold trimSpace
  have hdata : ("\n" ++ s).data = '\n' :: s.data := by
    simp [String.data_append]
  rw [hdata, trimLeftList_cons_space '\n' s.data (by decide)]

/-! ## `xmlToHex` and `readRequest` (src/main.go lines 100-130, 188-198)

The `encoding/xml` decoder is external; its result on a given input string is
supplied as an oracle.  `xml.Decoder.Decode` returns `io.EOF` when the input
holds no XML element (in particular on empty input), which `xmlToHex` maps to
an empty hex string; any other decoder error is propagated.  On success the
decoded `ttlv.TTLV` value is a byte slice, which `xmlToHex` hex-encodes. -/

/-- Outcome of `xml.Decoder.Decode` into a `ttlv.TTLV` value: a decoded byte
slice, end-of-file (no element in the input), or another decode error. -/
inductive XmlDecodeResult where
  | decoded (bytes : List Nat)
  | eof
  | failed (msg : String)
deriving DecidableEq

/-- `xmlToHex` from src/main.go: hex-encode the XML-decoded TTLV bytes,
mapping `io.EOF` to the empty string and propagating other errors. -/
def xmlToHex (d : XmlDecodeResult) : Except String String :=
  match d with
  | .decoded raw => .ok (hexEncodeToString raw)
  | .eof => .ok ""
  | .failed e => .error e

/-- `readRequest` from src/main.go, given the input text already read from the
file or stdin (`input`) and the XML decoder as an oracle from the (trimmed)
input string to its decode outcome.  The text is trimmed, then either passed
through `xmlToHex` and hex-decoded (format `"xml"`) or hex-decoded directly
(any other format). -/
def readRequest (input : String) (inputFormat : String)
    (xmlDecode : String → XmlDecodeResult) : Except String (List Nat) :=
  let requestStr := trimSpace input
  if inputFormat = "xml" then
    match xmlToHex (xmlDecode requestStr) with
    | .error e => .error ("failed to convert XML request to hex: " ++ e)
    | .ok hexRequest => hexDecodeString hexRequest
  else
    hexDecodeString requestStr

/-! ## `printResponse` (src/main.go lines 172-186)

`xml.MarshalIndent` is external and supplied as an oracle from the response
bytes to the indented XML string (or an error).  The returned list holds the
lines printed by `fmt.Println`; an error return prints nothing. -/

/-- `printResponse` from src/main.go: `"xml"` marshals the TTLV value to
indented XML, `"hex"` prints the hex encoding of the raw bytes, anything else
is an unknown-format error. -/
def printResponse (response : List Nat) (format : String)
    (xmlMarshal : List Nat → Except String String) : Except String (List String) :=
  if format = "xml" then
    match xmlMarshal response with
    | .error e => .error ("error printing XML: " ++ e)
    | .ok s => .ok [s]
  else if format = "hex" then
    .ok [hexEncodeToString response]
  else
    .error ("unknown output format: " ++ format)

/-! ## Response message model and `sendRequest` (src/main.go lines 132-170)

`kmip.ResponseMessage` (from the kmip-go library) carries a list of batch
items; each batch item has a `ResultStatus` enumeration and a `ResultMessage`
string.  `kmip14.ResultStatusSuccess` is the enumeration value 0.  A
`ttlv.TTLV` value is a raw byte slice; `Decoder.NextTTLV` reading one node
from the stream and `Decoder.DecodeValue` interpreting it as a
`ResponseMessage` are external and supplied as oracles.  The Go `error`
returned by `sendRequest` is modelled structurally so that the index, status
and message carried by a batch-item failure are observable. -/

/-- One KMIP response batch item: its result status enumeration value and the
server-supplied result message. -/
structure BatchItem where
  resultStatus : Nat
  resultMessage : String
deriving DecidableEq

/-- `kmip.ResponseMessage`, restricted to the field `sendRequest` reads. -/
structure ResponseMessage where
  batchItem : List BatchItem
deriving DecidableEq

/-- `kmip14.ResultStatusSuccess` (enumeration value 0). -/
def ResultStatusSuccess : Nat := 0

/-- The error value returned by `sendRequest`, by source: write failure, TTLV
stream decode failure, response-message decode failure, or a non-success
batch item (carrying its index, status and server message). -/
inductive SendError where
  | writeError (e : String)
  | ttlvError (e : String)
  | msgDecodeError (e : String)
  | batchItemError (index : Nat) (status : Nat) (message : String)
deriving DecidableEq

/-- The triple returned by `sendRequest`: the TTLV value (`none` for Go
`nil`), the string result, and the error (`none` for Go `nil`). -/
structure SendResult where
  resp : Option (List Nat)
  msg : String
  err : Option SendError
deriving DecidableEq

/-- The indexed scan over batch items in src/main.go lines 159-166: the first
item (from index `k` on) whose result status is not Success, with its index. -/
def firstFailingAux (k : Nat) : List BatchItem → Option (Nat × BatchItem)
  | [] => none
  | item :: rest =>
    if item.resultStatus ≠ ResultStatusSuccess then some (k, item)
    else firstFailingAux (k + 1) rest

/-- The first batch item whose result status is not Success, with its index. -/
def firstFailing (items : List BatchItem) : Option (Nat × BatchItem) :=
  firstFailingAux 0 items

/-- `sendRequest` from src/main.go.  `writeResult` is the error of
`conn.Write` (`none` on success), `nextTTLV` the outcome of
`Decoder.NextTTLV` (the raw bytes of one complete node, or an error), and
`decodeValue` the outcome of `Decoder.DecodeValue` on those bytes. -/
def sendRequest (writeResult : Option String)
    (nextTTLV : Except String (List Nat))
    (decodeValue : List Nat → Except String ResponseMessage) : SendResult :=
  match writeResult with
  | some e => ⟨none, "Unable to write request", some (.writeError e)⟩
  | none =>
    match nextTTLV with
    | .error e => ⟨none, "Unable to decode response TTLV", some (.ttlvError e)⟩
    | .ok resp =>
      match decodeValue resp with
      | .error e => ⟨some resp, "", some (.msgDecodeError e)⟩
      | .ok respMsg =>
        match firstFailing respMsg.batchItem with
        | some (i, item) =>
          ⟨some resp, "", some (.batchItemError i item.resultStatus item.resultMessage)⟩
        | none => ⟨some resp, hexEncodeToString resp, none⟩

/-! ## `setupConnection` (src/main.go lines 69-98)

`tls.LoadX509KeyPair`, `ioutil.ReadFile` and `tls.Dial` are external; the
first two are supplied as oracles (a loaded certificate is an opaque handle,
modelled as a `Nat`).  The observable outcome is the `tls.Config` value that
`setupConnection` hands to `tls.Dial`, or the error returned before dialing.
`x509.NewCertPool` / `AppendCertsFromPEM` are modelled as a pool recording
the PEM blobs appended to it. -/

/-- An `x509.CertPool`: the PEM blobs appended to it, in order. -/
structure CertPool where
  pems : List (List Nat)
deriving DecidableEq

/-- `x509.NewCertPool()`: the empty pool. -/
def newCertPool : CertPool := ⟨[]⟩

/-- `pool.AppendCertsFromPEM(pem)`: record the appended PEM bytes. -/
def CertPool.appendCertsFromPEM (p : CertPool) (pem : List Nat) : CertPool :=
  ⟨p.pems ++ [pem]⟩

/-- `tls.VersionTLS12` (0x0303). -/
def VersionTLS12 : Nat := 771

/-- The fields of Go `tls.Config` that `setupConnection` sets.  Zero values
(as in Go): no root CAs, `InsecureSkipVerify` false. -/
structure TLSConfig where
  certificates : List Nat
  minVersion : Nat
  insecureSkipVerify : Bool
  rootCAs : Option CertPool
deriving DecidableEq

/-- `setupConnection` from src/main.go, up to the `tls.Dial` call: it loads
the client key pair (`loadKeyPair` is the oracle for
`tls.LoadX509KeyPair(certFile, keyFile)`), builds the `tls.Config`, and on
success returns the config passed to `tls.Dial`.  `readFile` is the oracle
for `ioutil.ReadFile`. -/
def setupConnection (loadKeyPair : Except String Nat) (caFile : String)
    (readFile : String → Except String (List Nat)) : Except String TLSConfig :=
  match loadKeyPair with
  | .error e => .error ("failed to load client key pair: " ++ e)
  | .ok cer =>
    let conf : TLSConfig :=
      { certificates := [cer], minVersion := VersionTLS12,
        insecureSkipVerify := false, rootCAs := none }
    if caFile ≠ "" then
      match readFile caFile with
      | .error e => .error ("failed to read CA certificate: " ++ e)
      | .ok caCert =>
        .ok { conf with rootCAs := some (newCertPool.appendCertsFromPEM caCert) }
    else
      -- for dev/testing only, if no CA is provided
      .ok { conf with insecureSkipVerify := true }

/-! ## `main` (src/main.go lines 22-67)

Two views of `main` are embedded.  `mainOutcome` records how the process
terminates: help shown (missing required flags or `-help`, exit status 0),
a `log.Fatalf` (message to standard error, exit status 1), or success (exit
status 0).  `mainTrace` additionally records the ordered observable events,
modelling Go's `defer` semantics faithfully: the `defer conn.Close()`
registered after `setupConnection` succeeds runs when `main` returns
normally, but `log.Fatalf` terminates the process through `os.Exit(1)`,
which does NOT run deferred functions. -/

/-- How the process terminates. -/
inductive MainOutcome where
  | helpShown
  | fatalError (msg : String)
  | success
deriving DecidableEq

/-- The process exit status for each outcome (`log.Fatalf` exits with 1). -/
def MainOutcome.exitCode : MainOutcome → Nat
  | .fatalError _ => 1
  | _ => 0

/-- Whether the outcome wrote a fatal message to standard error. -/
def MainOutcome.wroteStderr : MainOutcome → Bool
  | .fatalError _ => true
  | _ => false

/-- `main` from src/main.go as a function of the parsed flags and the oracles
of its callees, returning how the process terminates.  `setup` is the result
of `setupConnection` (the connection handle itself is irrelevant here),
`readReq` the result of `readRequest`, and `writeResult`/`nextTTLV`/
`decodeValue`/`xmlMarshal` the oracles threaded to `sendRequest` and
`printResponse`.  On the success path `printResponse` receives the TTLV
value returned by `sendRequest` (a `nil` TTLV behaves as an empty byte
slice, hence `getD []`). -/
def mainOutcome (help : Bool) (serverAddr keyFile certFile outputFormat : String)
    (setup : Except String Unit) (readReq : Except String (List Nat))
    (writeResult : List Nat → Option String)
    (nextTTLV : Except String (List Nat))
    (decodeValue : List Nat → Except String ResponseMessage)
    (xmlMarshal : List Nat → Except String String) : MainOutcome :=
  if help ∨ serverAddr = "" ∨ keyFile = "" ∨ certFile = "" then .helpShown
  else
    match setup with
    | .error e => .fatalError ("Failed to establish connection: " ++ e)
    | .ok _ =>
      match readReq with
      | .error e => .fatalError ("Failed to read request: " ++ e)
      | .ok req =>
        let sr := sendRequest (writeResult req) nextTTLV decodeValue
        match sr.err with
        | some _ => .fatalError "Failed to send request"
        | none =>
          match printResponse (sr.resp.getD []) outputFormat xmlMarshal with
          | .error _ => .fatalError "Failed to print response"
          | .ok _ => .success

/-- Observable events of one run of `main`. -/
inductive Event where
  | helpPrinted
  | fatalLogged (msg : String)
  | responsePrinted
  | connClosed
deriving DecidableEq

/-- `main` from src/main.go as a trace of observable events plus the exit
status.  The `defer conn.Close()` at line 49 is registered once
`setupConnection` succeeds; Go runs deferred functions on normal return but
not on `os.Exit`, and every `log.Fatalf` terminates via `os.Exit(1)` — so
`connClosed` appears only on the normal-return path. -/
def mainTrace (help : Bool) (serverAddr keyFile certFile outputFormat : String)
    (setup : Except String Unit) (readReq : Except String (List Nat))
    (writeResult : List Nat → Option String)
    (nextTTLV : Except String (List Nat))
    (decodeValue : List Nat → Except String ResponseMessage)
    (xmlMarshal : List Nat → Except String String) : List Event × Nat :=
  if help ∨ serverAddr = "" ∨ keyFile = "" ∨ certFile = "" then
    ([.helpPrinted], 0)
  else
    match setup with
    | .error e => ([.fatalLogged ("Failed to establish connection: " ++ e)], 1)
    | .ok _ =>
      -- defer conn.Close() registered here; it runs only on normal return
      match readReq with
      | .error e => ([.fatalLogged ("Failed to read request: " ++ e)], 1)
      | .ok req =>
        let sr := sendRequest (writeResult req) nextTTLV decodeValue
        match sr.err with
        | some _ => ([.fatalLogged "Failed to send request"], 1)
        | none =>
          match printResponse (sr.resp.getD []) outputFormat xmlMarshal with
          | .error _ => ([.fatalLogged "Failed to print response"], 1)
          | .ok _ => ([.responsePrinted, .connClosed], 0)

/-! ## Correctness of the batch-item scan -/

theorem firstFailingAux_of_all_success (k : Nat) (items : List BatchItem)
    (h : ∀ it ∈ items, it.resultStatus = ResultStatusSuccess) :
    firstFailingAux k items = none := by
  induction items generalizing k with
  | nil => rfl
  | cons item rest ih =>
    have hitem : item.resultStatus = ResultStatusSuccess :=
      h item (List.mem_cons_self item rest)
    simp only [firstFailingAux, hitem, ne_eq, not_true_eq_false, if_false]
    exact ih (k + 1) (fun it hit => h it (List.mem_cons_of_mem _ hit))

theorem firstFailingAux_of_first_failure (k i : Nat) (items : List BatchItem)
    (item : BatchItem) (hget : items[i]? = some item)
    (hfail : item.resultStatus ≠ ResultStatusSuccess)
    (hbefore : ∀ j it, j < i → items[j]? = some it →
      it.resultStatus = ResultStatusSuccess) :
    firstFailingAux k items = some (k + i, item) := by
  induction items generalizing k i with
  | nil => simp at hget
  | cons hd tl ih =>
    cases i with
    | zero =>
      simp only [List.getElem?_cons_zero, Option.some.injEq] at hget
      subst hget
      simp [firstFailingAux, hfail]
    | succ n =>
      have hhd : hd.resultStatus = ResultStatusSuccess :=
        hbefore 0 hd (Nat.succ_pos n) (by simp)
      simp only [List.getElem?_cons_succ] at hget
      have hbefore2 : ∀ j it, j < n → tl[j]? = some it →
          it.resultStatus = ResultStatusSuccess := by
        intro j it hj hjt
        exact hbefore (j + 1) it (by omega) (by simpa using hjt)
      have hih := ih (k + 1) n hget hbefore2
      have hcond : ¬ (hd.resultStatus ≠ ResultStatusSuccess) := by
        rw [hhd]
        exact fun hc => hc rfl
      simp only [firstFailingAux, if_neg hcond]
      rw [hih, show k + 1 + n = k + (n + 1) by omega]

/-! ## Claim theorems -/

/-- C1: for a decoded response message, if every batch item's result status
is Success then `sendRequest` returns no error (and the raw TTLV plus its hex
rendering); if some batch item fails, `sendRequest` returns the raw decoded
TTLV together with an error carrying the first (lowest-index) failing item's
index, status and server-supplied message. -/
theorem sendRequest_batch_status (resp : List Nat)
    (decodeValue : List Nat → Except String ResponseMessage)
    (msg : ResponseMessage) (hdv : decodeValue resp = .ok msg) :
    ((∀ it ∈ msg.batchItem, it.resultStatus = ResultStatusSuccess) →
      sendRequest none (.ok resp) decodeValue =
        ⟨some resp, hexEncodeToString resp, none⟩) ∧
    (∀ i item, msg.batchItem[i]? = some item →
      item.resultStatus ≠ ResultStatusSuccess →
      (∀ j it, j < i → msg.batchItem[j]? = some it →
        it.resultStatus = ResultStatusSuccess) →
      sendRequest none (.ok resp) decodeValue =
        ⟨some resp, "",
          some (.batchItemError i item.resultStatus item.resultMessage)⟩) := by
  constructor
  · intro hall
    simp only [sendRequest, hdv, firstFailing,
      firstFailingAux_of_all_success 0 _ hall]
  · intro i item hget hfail hbefore
    have := firstFailingAux_of_first_failure 0 i msg.batchItem item hget hfail hbefore
    simp only [sendRequest, hdv, firstFailing, this, Nat.zero_add]

/-- Witness for C1 at concrete inputs: an all-success batch and a batch whose
item 1 is the first failure. -/
theorem sendRequest_batch_status_witness :
    sendRequest none (.ok [66, 0]) (fun _ => .ok ⟨[⟨0, ""⟩, ⟨0, "ok"⟩]⟩) =
      ⟨some [66, 0], hexEncodeToString [66, 0], none⟩ ∧
    sendRequest none (.ok [66, 0])
        (fun _ => .ok ⟨[⟨0, ""⟩, ⟨1, "server says no"⟩]⟩) =
      ⟨some [66, 0], "", some (.batchItemError 1 1 "server says no")⟩ := by
  constructor
  · exact (sendRequest_batch_status [66, 0] _ ⟨[⟨0, ""⟩, ⟨0, "ok"⟩]⟩ rfl).1
      (by decide)
  · exact (sendRequest_batch_status [66, 0] _ ⟨[⟨0, ""⟩, ⟨1, "server says no"⟩]⟩
      rfl).2 1 ⟨1, "server says no"⟩ (by decide) (by decide)
      (by
        intro j it hj hjt
        interval_cases j
        simp only [List.getElem?_cons_zero, Option.some.injEq] at hjt
        subst hjt
        rfl)

/-- C2: `setupConnection` always sets the TLS minimum version to 1.2 and
always includes the loaded client certificate/key pair (failing when it
cannot be loaded); with an empty CA path it disables server verification
(`InsecureSkipVerify`, no root pool), and with a non-empty CA path it leaves
verification enabled against a root pool built from that file's bytes. -/
theorem setupConnection_tls_config (loadKeyPair : Except String Nat)
    (caFile : String) (readFile : String → Except String (List Nat)) :
    (∀ e, loadKeyPair = .error e →
      setupConnection loadKeyPair caFile readFile =
        .error ("failed to load client key pair: " ++ e)) ∧
    (∀ conf, setupConnection loadKeyPair caFile readFile = .ok conf →
      conf.minVersion = VersionTLS12 ∧
      (∃ cer, loadKeyPair = .ok cer ∧ conf.certificates = [cer]) ∧
      (caFile = "" → conf.insecureSkipVerify = true ∧ conf.rootCAs = none) ∧
      (caFile ≠ "" → conf.insecureSkipVerify = false ∧
        ∃ pem, readFile caFile = .ok pem ∧
          conf.rootCAs = some (newCertPool.appendCertsFromPEM pem))) := by
  constructor
  · intro e he
    rw [he]
    rfl
  · intro conf hconf
    cases loadKeyPair with
    | error e => simp [setupConnection] at hconf
    | ok cer =>
      by_cases hca : caFile = ""
      · subst hca
        simp only [setupConnection, ne_eq, not_true_eq_false, if_false,
          Except.ok.injEq] at hconf
        subst hconf
        refine ⟨rfl, ⟨cer, rfl, rfl⟩, fun _ => ⟨rfl, rfl⟩, fun hne => absurd rfl hne⟩
      · simp only [setupConnection, ne_eq, hca, not_false_eq_true, if_true] at hconf
        cases hrf : readFile caFile with
        | error e => rw [hrf] at hconf; simp at hconf
        | ok pem =>
          rw [hrf] at hconf
          simp only [Except.ok.injEq] at hconf
          subst hconf
          exact ⟨rfl, ⟨cer, rfl, rfl⟩, fun h => absurd h hca,
            fun _ => ⟨rfl, pem, rfl, rfl⟩⟩

/-- Witness for C2 at concrete inputs: key pair loaded as handle 7, one run
with no CA file and one with a CA file whose bytes are `[48, 49]`. -/
theorem setupConnection_tls_config_witness :
    ((⟨[7], VersionTLS12, true, none⟩ : TLSConfig).minVersion = VersionTLS12 ∧
      (∃ cer, (Except.ok 7 : Except String Nat) = .ok cer ∧
        (⟨[7], VersionTLS12, true, none⟩ : TLSConfig).certificates = [cer]) ∧
      ((""  : String) = "" →
        (⟨[7], VersionTLS12, true, none⟩ : TLSConfig).insecureSkipVerify = true ∧
        (⟨[7], VersionTLS12, true, none⟩ : TLSConfig).rootCAs = none) ∧
      (("" : String) ≠ "" →
        (⟨[7], VersionTLS12, true, none⟩ : TLSConfig).insecureSkipVerify = false ∧
        ∃ pem, (fun _ => Except.ok [48, 49] : String → Except String (List Nat)) "" = .ok pem ∧
          (⟨[7], VersionTLS12, true, none⟩ : TLSConfig).rootCAs =
            some (newCertPool.appendCertsFromPEM pem))) ∧
    ((⟨[7], VersionTLS12, false, some ⟨[[48, 49]]⟩⟩ : TLSConfig).minVersion = VersionTLS12 ∧
      (∃ cer, (Except.ok 7 : Except String Nat) = .ok cer ∧
        (⟨[7], VersionTLS12, false, some ⟨[[48, 49]]⟩⟩ : TLSConfig).certificates = [cer]) ∧
      (("ca.pem" : String) = "" →
        (⟨[7], VersionTLS12, false, some ⟨[[48, 49]]⟩⟩ : TLSConfig).insecureSkipVerify = true ∧
        (⟨[7], VersionTLS12, false, some ⟨[[48, 49]]⟩⟩ : TLSConfig).rootCAs = none) ∧
      (("ca.pem" : String) ≠ "" →
        (⟨[7], VersionTLS12, false, some ⟨[[48, 49]]⟩⟩ : TLSConfig).insecureSkipVerify = false ∧
        ∃ pem, (fun _ => Except.ok [48, 49] : String → Except String (List Nat)) "ca.pem" = .ok pem ∧
          (⟨[7], VersionTLS12, false, some ⟨[[48, 49]]⟩⟩ : TLSConfig).rootCAs =
            some (newCertPool.appendCertsFromPEM pem))) :=
  ⟨(setupConnection_tls_config (.ok 7) "" (fun _ => .ok [48, 49])).2
      ⟨[7], VersionTLS12, true, none⟩ rfl,
    (setupConnection_tls_config (.ok 7) "ca.pem" (fun _ => .ok [48, 49])).2
      ⟨[7], VersionTLS12, false, some ⟨[[48, 49]]⟩⟩ rfl⟩

/-- C3 counterexample: a run in which the stream delivered two bytes
(`[66, 0]`) before `Decoder.NextTTLV` failed with a truncation error.  The
claim says `sendRequest` returns the raw bytes read so far (`some [66, 0]`)
alongside the error; in fact it returns `none` (Go `nil`), discarding them. -/
theorem sendRequest_partial_bytes_counterexample :
    (sendRequest none (Except.error "unexpected EOF")
        (fun _ => Except.error "not reached")).resp = none ∧
    (sendRequest none (Except.error "unexpected EOF")
        (fun _ => Except.error "not reached")).resp ≠ some [66, 0] := by
  exact ⟨rfl, by simp [sendRequest]⟩

/-- C3 amended: when reading/decoding the single TTLV node from the stream
fails, `sendRequest` returns no bytes (Go `nil`) alongside the error; the raw
bytes are returned alongside an error only when the node was read in full but
decoding it into a response message fails, in which case the whole raw node
is returned. -/
theorem sendRequest_raw_bytes_on_failure (e : String) (resp : List Nat)
    (decodeValue : List Nat → Except String ResponseMessage)
    (e2 : String) (hdv : decodeValue resp = .error e2) :
    (sendRequest none (.error e) decodeValue).resp = none ∧
    (sendRequest none (.error e) decodeValue).err = some (.ttlvError e) ∧
    (sendRequest none (.ok resp) decodeValue).resp = some resp ∧
    (sendRequest none (.ok resp) decodeValue).err = some (.msgDecodeError e2) := by
  refine ⟨rfl, rfl, ?_, ?_⟩ <;> simp [sendRequest, hdv]

/-- Witness for the amended C3 at concrete inputs. -/
theorem sendRequest_raw_bytes_on_failure_witness :
    (sendRequest none (.error "truncated")
        (fun _ => Except.error "bad message")).resp = none ∧
    (sendRequest none (.error "truncated")
        (fun _ => Except.error "bad message")).err =
      some (.ttlvError "truncated") ∧
    (sendRequest none (.ok [66, 0])
        (fun _ => Except.error "bad message")).resp = some [66, 0] ∧
    (sendRequest none (.ok [66, 0])
        (fun _ => Except.error "bad message")).err =
      some (.msgDecodeError "bad message") :=
  sendRequest_raw_bytes_on_failure "truncated" [66, 0]
    (fun _ => Except.error "bad message") "bad message" rfl

/-- C4 counterexample: invoked with no server address (a missing required
credential) but with key and certificate paths set, `main` prints the help
message and exits with status 0 — not a fatal message to standard error with
a non-zero status as the claim requires. -/
theorem mainOutcome_missing_flags_counterexample :
    mainOutcome false "" "client.key" "client.pem" "hex"
        (.ok ()) (.ok []) (fun _ => none) (.ok [])
        (fun _ => .ok ⟨[]⟩) (fun _ => .ok "") = .helpShown ∧
    MainOutcome.exitCode .helpShown = 0 ∧
    MainOutcome.wroteStderr .helpShown = false := by
  exact ⟨rfl, rfl, rfl⟩

/-- C4 amended: missing required flags (server address, key file or
certificate file) print the help message and exit with status 0; every
setup, I/O, or protocol failure after flag validation — connection setup,
request read, send/decode/protocol, response print — writes a fatal message
to standard error and exits with a non-zero status. -/
theorem mainOutcome_fatal_on_failures (serverAddr keyFile certFile outputFormat : String)
    (setup : Except String Unit) (readReq : Except String (List Nat))
    (writeResult : List Nat → Option String)
    (nextTTLV : Except String (List Nat))
    (decodeValue : List Nat → Except String ResponseMessage)
    (xmlMarshal : List Nat → Except String String)
    (hsa : serverAddr ≠ "") (hkf : keyFile ≠ "") (hcf : certFile ≠ "") :
    (serverAddr = "" ∨ keyFile = "" ∨ certFile = "" →
      mainOutcome false serverAddr keyFile certFile outputFormat setup readReq
        writeResult nextTTLV decodeValue xmlMarshal = .helpShown) ∧
    (∀ m, mainOutcome false serverAddr keyFile certFile outputFormat setup readReq
        writeResult nextTTLV decodeValue xmlMarshal = m →
      (m ≠ .helpShown) ∧
      (∀ s, m = .fatalError s → m.exitCode = 1 ∧ m.wroteStderr = true) ∧
      ((∃ e, setup = .error e) → ∃ s, m = .fatalError s) ∧
      (∀ e, setup = .ok () → readReq = .error e → ∃ s, m = .fatalError s) ∧
      (∀ req er, setup = .ok () → readReq = .ok req →
        (sendRequest (writeResult req) nextTTLV decodeValue).err = some er →
        ∃ s, m = .fatalError s) ∧
      (∀ req er, setup = .ok () → readReq = .ok req →
        (sendRequest (writeResult req) nextTTLV decodeValue).err = none →
        printResponse
          (((sendRequest (writeResult req) nextTTLV decodeValue).resp).getD [])
          outputFormat xmlMarshal = .error er →
        ∃ s, m = .fatalError s)) := by
  have hflags : (false = true ∨ serverAddr = "" ∨ keyFile = "" ∨ certFile = "") = False := by
    simp [hsa, hkf, hcf]
  constructor
  · intro hbad
    rcases hbad with h | h | h
    · exact absurd h hsa
    · exact absurd h hkf
    · exact absurd h hcf
  · intro m hm
    subst hm
    simp only [mainOutcome, hflags, if_false]
    refine ⟨?_, ?_, ?_, ?_, ?_, ?_⟩
    · cases setup with
      | error e => simp
      | ok u =>
        cases u
        cases readReq with
        | error e => simp
        | ok req =>
          cases herr : (sendRequest (writeResult req) nextTTLV decodeValue).err with
          | some er => simp [herr]
          | none =>
            simp only [herr]
            cases hpr : printResponse
                (((sendRequest (writeResult req) nextTTLV decodeValue).resp).getD [])
                outputFormat xmlMarshal with
            | error e => simp [hpr]
            | ok ls => simp [hpr]
    · intro s hs
      rw [hs]
      exact ⟨rfl, rfl⟩
    · rintro ⟨e, he⟩
      rw [he]
      exact ⟨"Failed to establish connection: " ++ e, rfl⟩
    · intro e hsetup hread
      rw [hsetup, hread]
      exact ⟨"Failed to read request: " ++ e, rfl⟩
    · intro req er hsetup hread herr
      rw [hsetup, hread]
      simp only [herr]
      exact ⟨"Failed to send request", rfl⟩
    · intro req er hsetup hread herr hpr
      rw [hsetup, hread]
      simp only [herr, hpr]
      exact ⟨"Failed to print response", rfl⟩

/-- Witness for the amended C4 at concrete inputs: a run whose request read
fails (invalid hex) ends in a fatal error with exit status 1. -/
theorem mainOutcome_fatal_on_failures_witness :
    mainOutcome false "localhost:5696" "client.key" "client.pem" "hex"
        (.ok ()) (.error "bad hex") (fun _ => none) (.ok [])
        (fun _ => .ok ⟨[]⟩) (fun _ => .ok "") =
      .fatalError "Failed to read request: bad hex" ∧
    MainOutcome.exitCode (.fatalError "Failed to read request: bad hex") = 1 := by
  have h := ((mainOutcome_fatal_on_failures "localhost:5696" "client.key"
      "client.pem" "hex" (.ok ()) (.error "bad hex") (fun _ => none) (.ok [])
      (fun _ => .ok ⟨[]⟩) (fun _ => .ok "")
      (by decide) (by decide) (by decide)).2 _ rfl)
  obtain ⟨s, hs⟩ := h.2.2.2.1 "bad hex" rfl rfl
  have hval : mainOutcome false "localhost:5696" "client.key" "client.pem" "hex"
      (.ok ()) (.error "bad hex") (fun _ => none) (.ok [])
      (fun _ => .ok ⟨[]⟩) (fun _ => .ok "") =
      .fatalError "Failed to read request: bad hex" := rfl
  exact ⟨hval, (h.2.1 _ hval).1⟩

/-- C5: in a run where the connection is established and `readRequest` then
fails (e.g. the input is not valid hex), `main` terminates through
`log.Fatalf`/`os.Exit(1)`, which does not run the deferred `conn.Close()` —
the trace contains no `connClosed` event, contradicting the claim that the
connection is closed on every exit path.  On the normal-return path the
deferred close does run. -/
theorem mainTrace_close_skipped_on_fatal :
    Event.connClosed ∉
      (mainTrace false "localhost:5696" "client.key" "client.pem" "hex"
        (.ok ()) (.error "invalid hex input") (fun _ => none) (.ok [])
        (fun _ => .ok ⟨[]⟩) (fun _ => .ok "")).1 ∧
    (mainTrace false "localhost:5696" "client.key" "client.pem" "hex"
        (.ok ()) (.error "invalid hex input") (fun _ => none) (.ok [])
        (fun _ => .ok ⟨[]⟩) (fun _ => .ok "")).2 = 1 ∧
    Event.connClosed ∈
      (mainTrace false "localhost:5696" "client.key" "client.pem" "hex"
        (.ok ()) (.ok []) (fun _ => none) (.ok [])
        (fun _ => .ok ⟨[]⟩) (fun _ => .ok "")).1 := by
  refine ⟨?_, rfl, ?_⟩
  · rw [show (mainTrace false "localhost:5696" "client.key" "client.pem" "hex"
        (.ok ()) (.error "invalid hex input") (fun _ => none) (.ok [])
        (fun _ => .ok ⟨[]⟩) (fun _ => .ok "")).1 =
        [Event.fatalLogged "Failed to read request: invalid hex input"] from rfl]
    simp
  · rw [show (mainTrace false "localhost:5696" "client.key" "client.pem" "hex"
        (.ok ()) (.ok []) (fun _ => none) (.ok [])
        (fun _ => .ok ⟨[]⟩) (fun _ => .ok "")).1 =
        [Event.responsePrinted, Event.connClosed] from rfl]
    simp

/-- C6: for any byte sequence `B`, feeding `readRequest` the hex encoding of
`B` in `"hex"` format and feeding it an XML document that decodes to `B` in
`"xml"` format yield the same request bytes `B`; the hex-encode-then-decode
round trip in the XML path is the identity. -/
theorem readRequest_hex_xml_agree (B : List Nat) (hB : ∀ b ∈ B, b < 256)
    (xmlInput : String) (xmlDecode : String → XmlDecodeResult)
    (hxd : xmlDecode (trimSpace xmlInput) = .decoded B) :
    readRequest (hexEncodeToString B) "hex" xmlDecode = .ok B ∧
    readRequest xmlInput "xml" xmlDecode = .ok B ∧
    hexDecodeString (hexEncodeToString B) = .ok B := by
  have hrt : hexDecodeString (hexEncodeToString B) = .ok B :=
    hexDecodeString_hexEncodeToString B hB
  refine ⟨?_, ?_, hrt⟩
  · simp only [readRequest, if_neg (by decide : ¬ ("hex" = "xml")),
      trimSpace_hexEncodeToString, hrt]
  · simp [readRequest, hxd, xmlToHex, hrt]

/-- Witness for C6 at a concrete input: `B = [66, 0, 119]`, the XML input
`"<TTLV/>"` decoding to `B`. -/
theorem readRequest_hex_xml_agree_witness :
    readRequest (hexEncodeToString [66, 0, 119]) "hex"
        (fun _ => .decoded [66, 0, 119]) = .ok [66, 0, 119] ∧
    readRequest "<TTLV/>" "xml"
        (fun _ => .decoded [66, 0, 119]) = .ok [66, 0, 119] ∧
    hexDecodeString (hexEncodeToString [66, 0, 119]) = .ok [66, 0, 119] :=
  readRequest_hex_xml_agree [66, 0, 119] (by decide) "<TTLV/>"
    (fun _ => .decoded [66, 0, 119]) rfl

/-- C7: `printResponse` with format `"hex"` prints the hex text of the raw
response bytes and returns no error; with format `"xml"` it prints the
indented XML rendering (when marshalling succeeds) and returns no error; with
any other format it returns an error and prints nothing. -/
theorem printResponse_formats (response : List Nat) (format : String)
    (xmlMarshal : List Nat → Except String String) (s : String)
    (hxm : xmlMarshal response = .ok s) :
    printResponse response "hex" xmlMarshal = .ok [hexEncodeToString response] ∧
    printResponse response "xml" xmlMarshal = .ok [s] ∧
    (format ≠ "hex" → format ≠ "xml" →
      printResponse response format xmlMarshal =
        .error ("unknown output format: " ++ format)) := by
  refine ⟨rfl, ?_, ?_⟩
  · simp [printResponse, hxm]
  · intro h1 h2
    simp [printResponse, h1, h2]

/-- Witness for C7 at concrete inputs, with the unknown format `"json"`. -/
theorem printResponse_formats_witness :
    printResponse [66, 0] "hex" (fun _ => .ok "<TTLV/>") =
      .ok [hexEncodeToString [66, 0]] ∧
    printResponse [66, 0] "xml" (fun _ => .ok "<TTLV/>") = .ok ["<TTLV/>"] ∧
    (("json" : String) ≠ "hex" → ("json" : String) ≠ "xml" →
      printResponse [66, 0] "json" (fun _ => .ok "<TTLV/>") =
        .error ("unknown output format: " ++ "json")) :=
  printResponse_formats [66, 0] "json" (fun _ => .ok "<TTLV/>") "<TTLV/>" rfl

/-- C8: for any input format other than `"xml"` — misspellings included —
`readRequest` silently treats the input as hexadecimal text rather than
rejecting the unknown format, whereas `printResponse` rejects any output
format other than `"hex"` and `"xml"` with an error. -/
theorem readRequest_unknown_format_is_hex (input format : String)
    (xmlDecode : String → XmlDecodeResult) (response : List Nat)
    (xmlMarshal : List Nat → Except String String)
    (hfmt : format ≠ "xml") (hfmt2 : format ≠ "hex") :
    readRequest input format xmlDecode = hexDecodeString (trimSpace input) ∧
    printResponse response format xmlMarshal =
      .error ("unknown output format: " ++ format) := by
  constructor
  · simp [readRequest, hfmt]
  · simp [printResponse, hfmt, hfmt2]

/-- Witness for C8 at a concrete input: the misspelled format `"hexx"`. -/
theorem readRequest_unknown_format_is_hex_witness :
    readRequest "4200" "hexx" (fun _ => .eof) =
      hexDecodeString (trimSpace "4200") ∧
    printResponse [66, 0] "hexx" (fun _ => .ok "<TTLV/>") =
      .error ("unknown output format: " ++ "hexx") :=
  readRequest_unknown_format_is_hex "4200" "hexx" (fun _ => .eof) [66, 0]
    (fun _ => .ok "<TTLV/>") (by decide) (by decide)

/-- C9: `readRequest` trims leading and trailing whitespace before decoding —
prepending or appending a newline to the input never changes the result, and
in particular a hex request followed by a trailing newline still decodes to
the original bytes. -/
theorem readRequest_trims_whitespace (input format : String)
    (xmlDecode : String → XmlDecodeResult) (B : List Nat)
    (hB : ∀ b ∈ B, b < 256) :
    readRequest (input ++ "\n") format xmlDecode =
      readRequest input format xmlDecode ∧
    readRequest ("\n" ++ input) format xmlDecode =
      readRequest input format xmlDecode ∧
    readRequest (hexEncodeToString B ++ "\n") "hex" xmlDecode = .ok B := by
  refine ⟨?_, ?_, ?_⟩
  · simp only [readRequest, trimSpace_append_newline]
  · simp only [readRequest, trimSpace_newline_prepend]
  · simp only [readRequest, if_neg (by decide : ¬ ("hex" = "xml")),
      trimSpace_append_newline, trimSpace_hexEncodeToString]
    exact hexDecodeString_hexEncodeToString B hB

/-- Witness for C9 at a concrete input: `"4200" ++ "\n"` (as produced by
`echo` piped into stdin) decodes to `[66, 0]`. -/
theorem readRequest_trims_whitespace_witness :
    readRequest (hexEncodeToString [66, 0] ++ "\n") "hex" (fun _ => .eof) =
      .ok [66, 0] :=
  (readRequest_trims_whitespace (hexEncodeToString [66, 0]) "hex"
    (fun _ => .eof) [66, 0] (by decide)).2.2

/-- C10: on an input that is empty after whitespace trimming, in `"xml"`
format, the XML decoder hits end-of-file, `xmlToHex` returns the empty
string with no error, and `readRequest` succeeds with an empty request byte
sequence rather than reporting a malformed-input error. -/
theorem readRequest_empty_xml_input (input : String)
    (xmlDecode : String → XmlDecodeResult)
    (hEmpty : trimSpace input = "")
    (hEof : xmlDecode "" = .eof) :
    xmlToHex (xmlDecode (trimSpace input)) = .ok "" ∧
    readRequest input "xml" xmlDecode = .ok [] := by
  rw [hEmpty]
  refine ⟨by simp [xmlToHex, hEof], ?_⟩
  simp only [readRequest, if_pos rfl, hEmpty, hEof, xmlToHex]
  rfl

/-- Witness for C10 at a concrete input: whitespace-only input `"  \n"`. -/
theorem readRequest_empty_xml_input_witness :
    xmlToHex ((fun _ => XmlDecodeResult.eof) (trimSpace "  \n")) = .ok "" ∧
    readRequest "  \n" "xml" (fun _ => XmlDecodeResult.eof) = .ok [] :=
  readRequest_empty_xml_input "  \n" (fun _ => .eof) (by decide) rfl

end KmipCli
